import Mathlib

/-!
Verification of the dataset-construction and region-geometry pipeline of an
IAM handwriting-recognition codebase, shallowly embedded in Lean.

The embedding covers:
* `text_recognizer/data/iam.py`: region computation from XML coordinate atoms
  (`_get_region_from_xml_element`), gap-aware line padding
  (`_get_line_regions_from_xml_file`), split-file parsing
  (`_get_ids_from_lwitlrt_split_file`), and the train/val/test partition.
* `text_recognizer/data/iam_paragraphs.py`: dimension validation at setup time.
* `text_recognizer/data/iam_synthetic_paragraphs.py`: the synthetic paragraph
  composer's shrinking retry loop.
-/

namespace FSDL

/-! ## Constants (from `text_recognizer/metadata/iam.py`) -/

/-- DOWNSAMPLE_FACTOR = 2: stored images are downsampled, so regions must be too. -/
def DOWNSAMPLE_FACTOR : Int := 2

/-- LINE_REGION_PADDING = 8: pixels of padding around exact line coordinates. -/
def LINE_REGION_PADDING : Int := 8

/-! ## Data model: coordinate atoms and region boxes -/

/-- A word/character component XML element with x, y, width, height attributes. -/
structure Atom where
  x : Int
  y : Int
  width : Int
  height : Int
deriving DecidableEq, Repr

/-- A crop region dict `{x1, y1, x2, y2}` in downsampled pixel space. -/
structure Region where
  x1 : Int
  y1 : Int
  x2 : Int
  y2 : Int
deriving DecidableEq, Repr

instance : Inhabited Region := ⟨⟨0, 0, 0, 0⟩⟩

/-! ## `_get_region_from_xml_element` (iam.py)

Python (iam.py, lines 216-235):
```
unit_elements = xml_elem.findall(xml_path)
if not unit_elements:
    return None
return {
    "x1": min(int(el.attrib["x"]) for el in unit_elements) // DOWNSAMPLE_FACTOR,
    "y1": min(int(el.attrib["y"]) for el in unit_elements) // DOWNSAMPLE_FACTOR,
    "x2": max(int(el.attrib["x"]) + int(el.attrib["width"]) for el in unit_elements) // DOWNSAMPLE_FACTOR,
    "y2": max(int(el.attrib["y"]) + int(el.attrib["height"]) for el in unit_elements) // DOWNSAMPLE_FACTOR,
}
```
Python `min`/`max` over a nonempty generator fold from the first element;
`//` is floor division (`Int.fdiv`). -/

/-- Embedding of `_get_region_from_xml_element`: `none` on an empty element
list, otherwise the min/max box of the atoms, floor-divided by the downsample
factor. -/
def getRegionFromXmlElement (unitElements : List Atom) : Option Region :=
  match unitElements with
  | [] => none
  | e :: es =>
    some
      { x1 := Int.fdiv (es.foldl (fun m u => min m u.x) e.x) DOWNSAMPLE_FACTOR
        y1 := Int.fdiv (es.foldl (fun m u => min m u.y) e.y) DOWNSAMPLE_FACTOR
        x2 := Int.fdiv (es.foldl (fun m u => max m (u.x + u.width)) (e.x + e.width)) DOWNSAMPLE_FACTOR
        y2 := Int.fdiv (es.foldl (fun m u => max m (u.y + u.height)) (e.y + e.height)) DOWNSAMPLE_FACTOR }

/-- Spec-side formulation of the same box (follows the spec's words for the
refinement claim C2): `x1 = min(x) / d`, `y1 = min(y) / d`,
`x2 = max(x + width) / d`, `y2 = max(y + height) / d` with integer floor
division, where the min/max range over all atoms of the nonempty list. -/
def regionSpec (e : Atom) (es : List Atom) : Region :=
  { x1 := Int.fdiv ((((e :: es).map Atom.x).min?).getD 0) DOWNSAMPLE_FACTOR
    y1 := Int.fdiv ((((e :: es).map Atom.y).min?).getD 0) DOWNSAMPLE_FACTOR
    x2 := Int.fdiv ((((e :: es).map (fun u => u.x + u.width)).max?).getD 0) DOWNSAMPLE_FACTOR
    y2 := Int.fdiv ((((e :: es).map (fun u => u.y + u.height)).max?).getD 0) DOWNSAMPLE_FACTOR }

theorem min_of_map_cons (f : Atom → Int) (e : Atom) (es : List Atom) :
    (((e :: es).map f).min?).getD 0 = es.foldl (fun m u => min m (f u)) (f e) := by
  simp [List.min?, List.foldl_map]

theorem max_of_map_cons (f : Atom → Int) (e : Atom) (es : List Atom) :
    (((e :: es).map f).max?).getD 0 = es.foldl (fun m u => max m (f u)) (f e) := by
  simp [List.max?, List.foldl_map]

/-- C2: on a nonempty atom list the computed region is exactly the spec's
min/max floor-divided box; the empty list yields `None`; and the concrete
two-atom example evaluates to `x1=5, y1=10, x2=18, y2=15`. -/
theorem getRegionFromXmlElement_spec :
    (∀ (e : Atom) (es : List Atom),
        getRegionFromXmlElement (e :: es) = some (regionSpec e es)) ∧
    getRegionFromXmlElement [] = none ∧
    getRegionFromXmlElement [⟨10, 20, 5, 8⟩, ⟨30, 22, 6, 9⟩] =
      some ⟨5, 10, 18, 15⟩ := by
  refine ⟨fun e es => ?_, rfl, by decide⟩
  simp only [getRegionFromXmlElement, regionSpec, Option.some.injEq]
  rw [min_of_map_cons Atom.x, min_of_map_cons Atom.y,
    max_of_map_cons (fun u => u.x + u.width), max_of_map_cons (fun u => u.y + u.height)]

/-! ## `_get_line_regions_from_xml_file` (iam.py)

Python (iam.py, lines 183-207):
```
line_regions = [_get_region_from_xml_element(el, "word/cmp") for el in xml_line_elements]
assert any(region is not None for region in line_regions), "Line regions cannot be None"
line_gaps_y = [max(next_line_region["y1"] - prev_line_region["y2"], 0)
               for next_line_region, prev_line_region in zip(line_regions[1:], line_regions[:-1])]
post_line_gaps_y = line_gaps_y + [2 * LINE_REGION_PADDING]
pre_line_gaps_y = [2 * LINE_REGION_PADDING] + line_gaps_y
return [{"x1": region["x1"] - LINE_REGION_PADDING,
         "x2": region["x2"] + LINE_REGION_PADDING,
         "y1": region["y1"] - min(LINE_REGION_PADDING, pre_line_gaps_y[i] // 2),
         "y2": region["y2"] + min(LINE_REGION_PADDING, post_line_gaps_y[i] // 2)}
        for i, region in enumerate(line_regions)]
```
Subscripting a `None` region raises `TypeError`, modelled with `Except`. -/

/-- Sequence optional regions: `some` of the values when all are `some`,
otherwise `none`. Models dereferencing every entry of `line_regions`, which
raises if a `None` is present. -/
def collectRegions : List (Option Region) → Option (List Region)
  | [] => some []
  | none :: _ => none
  | some r :: rest => (collectRegions rest).map (fun rs => r :: rs)

/-- The `line_gaps_y` list: for each consecutive pair
`zip(line_regions[1:], line_regions[:-1])`, `max(next.y1 - prev.y2, 0)`. -/
def lineGapsY (line_regions : List Region) : List Int :=
  (line_regions.tail.zip line_regions).map
    (fun p => max (p.1.y1 - p.2.y2) 0)

/-- The final comprehension of `_get_line_regions_from_xml_file`: pad each
region horizontally by the fixed padding and vertically by
`min(padding, gap // 2)` against the pre/post gap lists, which extend the
inter-line gaps with `2 * LINE_REGION_PADDING` at each boundary. -/
def padLineRegions (line_regions : List Region) : List Region :=
  let line_gaps_y := lineGapsY line_regions
  let post_line_gaps_y := line_gaps_y ++ [2 * LINE_REGION_PADDING]
  let pre_line_gaps_y := 2 * LINE_REGION_PADDING :: line_gaps_y
  (List.range line_regions.length).map (fun i =>
    let region := line_regions.getD i default
    { x1 := region.x1 - LINE_REGION_PADDING
      x2 := region.x2 + LINE_REGION_PADDING
      y1 := region.y1 - min LINE_REGION_PADDING (Int.fdiv (pre_line_gaps_y.getD i 0) 2)
      y2 := region.y2 + min LINE_REGION_PADDING (Int.fdiv (post_line_gaps_y.getD i 0) 2) })

/-- Embedding of `_get_line_regions_from_xml_file`, taking the coordinate
atoms of each line element of the form. The assertion failure and the
`TypeError` raised by subscripting a `None` region are the two error
outcomes. -/
def getLineRegionsFromXmlFile (xmlLineElements : List (List Atom)) : Except String (List Region) :=
  let line_regions := xmlLineElements.map getRegionFromXmlElement
  if line_regions.any Option.isSome then
    match collectRegions line_regions with
    | some rs => Except.ok (padLineRegions rs)
    | none => Except.error "TypeError"
  else Except.error "AssertionError"

/-- The unpadded region of each line of a form, defined when every line has at
least one atom. -/
def unpaddedRegions (xmlLineElements : List (List Atom)) : List Region :=
  xmlLineElements.map (fun l => (getRegionFromXmlElement l).getD default)

/-- Spec-side gap before line `i`: `2 * padding` for the first line, otherwise
the clamped gap to the previous line. -/
def specGapBefore (rs : List Region) (i : Nat) : Int :=
  if i = 0 then 2 * LINE_REGION_PADDING
  else max ((rs.getD i default).y1 - (rs.getD (i - 1) default).y2) 0

/-- Spec-side gap after line `i`: `2 * padding` for the last line, otherwise
the clamped gap to the next line. -/
def specGapAfter (rs : List Region) (i : Nat) : Int :=
  if i = rs.length - 1 then 2 * LINE_REGION_PADDING
  else max ((rs.getD (i + 1) default).y1 - (rs.getD i default).y2) 0

theorem lineGapsY_length (rs : List Region) : (lineGapsY rs).length = rs.length - 1 := by
  simp [lineGapsY]

theorem lineGapsY_getD :
    ∀ (rs : List Region) (i : Nat), i + 1 < rs.length →
      (lineGapsY rs).getD i 0 =
        max ((rs.getD (i + 1) default).y1 - (rs.getD i default).y2) 0
  | _ :: _ :: _, 0, _ => by simp [lineGapsY]
  | a :: b :: t, i + 1, h => by
    have ih := lineGapsY_getD (b :: t) i (by simpa using h)
    simpa [lineGapsY] using ih

theorem collectRegions_of_forall_nonempty (lines : List (List Atom))
    (h : ∀ l ∈ lines, l ≠ []) :
    collectRegions (lines.map getRegionFromXmlElement) = some (unpaddedRegions lines) := by
  induction lines with
  | nil => rfl
  | cons a as ih =>
    obtain ⟨r, hr⟩ : ∃ r, getRegionFromXmlElement a = some r := by
      cases a with
      | nil => exact absurd rfl (h [] (by simp))
      | cons e es => exact ⟨_, rfl⟩
    have has : ∀ l ∈ as, l ≠ [] := fun l hl => h l (by simp [hl])
    simp [collectRegions, hr, ih has, unpaddedRegions, Option.getD]

theorem getLineRegionsFromXmlFile_ok (lines : List (List Atom)) (hne : lines ≠ [])
    (hall : ∀ l ∈ lines, l ≠ []) :
    getLineRegionsFromXmlFile lines = Except.ok (padLineRegions (unpaddedRegions lines)) := by
  have hany : (lines.map getRegionFromXmlElement).any Option.isSome = true := by
    cases lines with
    | nil => exact absurd rfl hne
    | cons a as =>
      cases a with
      | nil => exact absurd rfl (hall [] (by simp))
      | cons e es => simp [getRegionFromXmlElement]
  simp only [getLineRegionsFromXmlFile, hany, if_true,
    collectRegions_of_forall_nonempty lines hall]

theorem padLineRegions_getD (rs : List Region) (i : Nat) (hi : i < rs.length) :
    (padLineRegions rs).getD i default =
      { x1 := (rs.getD i default).x1 - LINE_REGION_PADDING
        x2 := (rs.getD i default).x2 + LINE_REGION_PADDING
        y1 := (rs.getD i default).y1 - min LINE_REGION_PADDING (Int.fdiv (specGapBefore rs i) 2)
        y2 := (rs.getD i default).y2 + min LINE_REGION_PADDING (Int.fdiv (specGapAfter rs i) 2) } := by
  have hpre : (2 * LINE_REGION_PADDING :: lineGapsY rs).getD i 0 = specGapBefore rs i := by
    cases i with
    | zero => simp [specGapBefore]
    | succ j =>
      rw [List.getD_cons_succ, specGapBefore, if_neg (Nat.succ_ne_zero j),
        lineGapsY_getD rs j hi]
      simp
  have hpost : (lineGapsY rs ++ [2 * LINE_REGION_PADDING]).getD i 0 = specGapAfter rs i := by
    by_cases hlast : i = rs.length - 1
    · rw [List.getD_eq_getElem?_getD, List.getElem?_append_right
        (by rw [lineGapsY_length]; omega), specGapAfter, if_pos hlast, lineGapsY_length]
      simp [hlast]
    · rw [List.getD_eq_getElem?_getD, List.getElem?_append_left
        (by rw [lineGapsY_length]; omega), ← List.getD_eq_getElem?_getD,
        lineGapsY_getD rs i (by omega), specGapAfter, if_neg hlast]
  simp only [padLineRegions]
  rw [List.getD_eq_getElem?_getD, List.getElem?_map, List.getElem?_range hi,
    Option.map_some', Option.getD_some, hpre, hpost]

/-- C1: for a form whose lines each have at least one coordinate atom,
`_get_line_regions_from_xml_file` succeeds and pads the `i`-th unpadded line
box horizontally by the fixed padding 8 on both sides unconditionally, and
vertically by `min(padding, gap_before / 2)` above and
`min(padding, gap_after / 2)` below (floor division), where the gap between
consecutive lines is `max(0, next.y1 - this.y2)` and the first line's
gap-before and the last line's gap-after are `2 * padding`. -/
theorem lineRegions_padding (lines : List (List Atom)) (hne : lines ≠ [])
    (hall : ∀ l ∈ lines, l ≠ []) (i : Nat) (hi : i < lines.length) :
    ∃ rs, getLineRegionsFromXmlFile lines = Except.ok rs ∧
      rs.getD i default =
        { x1 := ((unpaddedRegions lines).getD i default).x1 - LINE_REGION_PADDING
          x2 := ((unpaddedRegions lines).getD i default).x2 + LINE_REGION_PADDING
          y1 := ((unpaddedRegions lines).getD i default).y1 -
            min LINE_REGION_PADDING (Int.fdiv (specGapBefore (unpaddedRegions lines) i) 2)
          y2 := ((unpaddedRegions lines).getD i default).y2 +
            min LINE_REGION_PADDING (Int.fdiv (specGapAfter (unpaddedRegions lines) i) 2) } := by
  refine ⟨padLineRegions (unpaddedRegions lines),
    getLineRegionsFromXmlFile_ok lines hne hall, ?_⟩
  exact padLineRegions_getD (unpaddedRegions lines) i (by simpa [unpaddedRegions] using hi)

/-- Witness for C1: a two-line form, checked at line index 0.  The first
line's atoms are those of the spec's worked example, so its unpadded region
is `(5, 10, 18, 15)`; the gap to the second line (unpadded `y1 = 20`) is 5,
so the padded first box is `(-3, 2, 19, 17)`. -/
theorem lineRegions_padding_witness :
    ([[⟨10, 20, 5, 8⟩, ⟨30, 22, 6, 9⟩], [⟨12, 40, 6, 10⟩]] : List (List Atom)) ≠ [] ∧
    (∀ l ∈ ([[⟨10, 20, 5, 8⟩, ⟨30, 22, 6, 9⟩], [⟨12, 40, 6, 10⟩]] : List (List Atom)), l ≠ []) ∧
    ∃ rs, getLineRegionsFromXmlFile [[⟨10, 20, 5, 8⟩, ⟨30, 22, 6, 9⟩], [⟨12, 40, 6, 10⟩]] =
        Except.ok rs ∧
      rs.getD 0 default =
        { x1 := ((unpaddedRegions [[⟨10, 20, 5, 8⟩, ⟨30, 22, 6, 9⟩], [⟨12, 40, 6, 10⟩]]).getD 0 default).x1 - LINE_REGION_PADDING
          x2 := ((unpaddedRegions [[⟨10, 20, 5, 8⟩, ⟨30, 22, 6, 9⟩], [⟨12, 40, 6, 10⟩]]).getD 0 default).x2 + LINE_REGION_PADDING
          y1 := ((unpaddedRegions [[⟨10, 20, 5, 8⟩, ⟨30, 22, 6, 9⟩], [⟨12, 40, 6, 10⟩]]).getD 0 default).y1 -
            min LINE_REGION_PADDING (Int.fdiv (specGapBefore (unpaddedRegions [[⟨10, 20, 5, 8⟩, ⟨30, 22, 6, 9⟩], [⟨12, 40, 6, 10⟩]]) 0) 2)
          y2 := ((unpaddedRegions [[⟨10, 20, 5, 8⟩, ⟨30, 22, 6, 9⟩], [⟨12, 40, 6, 10⟩]]).getD 0 default).y2 +
            min LINE_REGION_PADDING (Int.fdiv (specGapAfter (unpaddedRegions [[⟨10, 20, 5, 8⟩, ⟨30, 22, 6, 9⟩], [⟨12, 40, 6, 10⟩]]) 0) 2) } :=
  ⟨by decide, by decide,
    lineRegions_padding [[⟨10, 20, 5, 8⟩, ⟨30, 22, 6, 9⟩], [⟨12, 40, 6, 10⟩]]
      (by decide) (by decide) 0 (by decide)⟩

/-- C6: for two vertically adjacent line regions whose unpadded gap
`next.y1 - this.y2` is non-negative, the vertical padding applied by the line
region computation does not make the boxes overlap: the post-padding `y2` of
line `i` is at most the pre-padding `y1` of line `i + 1`. -/
theorem padLineRegions_no_overlap (rs : List Region) (i : Nat) (hi : i + 1 < rs.length)
    (hgap : 0 ≤ (rs.getD (i + 1) default).y1 - (rs.getD i default).y2) :
    ((padLineRegions rs).getD i default).y2 ≤ (rs.getD (i + 1) default).y1 := by
  rw [padLineRegions_getD rs i (by omega)]
  dsimp only
  have hlast : i ≠ rs.length - 1 := by omega
  rw [specGapAfter, if_neg hlast]
  rw [max_eq_left hgap, Int.fdiv_eq_ediv _ (by norm_num)]
  have hdiv : ((rs.getD (i + 1) default).y1 - (rs.getD i default).y2) / 2 ≤
      (rs.getD (i + 1) default).y1 - (rs.getD i default).y2 :=
    Int.ediv_le_self 2 hgap
  simp only [LINE_REGION_PADDING]
  omega

/-- Witness for C6: two unpadded regions with a gap of 5; the padded `y2` of
the first line (`15 + min 8 2 = 17`) stays below the second line's unpadded
`y1 = 20`. -/
theorem padLineRegions_no_overlap_witness :
    0 + 1 < ([⟨5, 10, 18, 15⟩, ⟨6, 20, 18, 25⟩] : List Region).length ∧
    0 ≤ (([⟨5, 10, 18, 15⟩, ⟨6, 20, 18, 25⟩] : List Region).getD 1 default).y1 -
      (([⟨5, 10, 18, 15⟩, ⟨6, 20, 18, 25⟩] : List Region).getD 0 default).y2 ∧
    ((padLineRegions [⟨5, 10, 18, 15⟩, ⟨6, 20, 18, 25⟩]).getD 0 default).y2 ≤
      (([⟨5, 10, 18, 15⟩, ⟨6, 20, 18, 25⟩] : List Region).getD 1 default).y1 :=
  ⟨by decide, by decide,
    padLineRegions_no_overlap [⟨5, 10, 18, 15⟩, ⟨6, 20, 18, 25⟩] 0 (by decide) (by decide)⟩

/-- C9: the only guard in `_get_line_regions_from_xml_file` is the assertion
that some region is not `None`.  Under the stronger precondition that every
line has at least one coordinate atom the function is total (returns the
padded regions), but on a form whose first line has an atom and whose second
line has none, the guard passes and the gap/padding computation dereferences
the `None` region and raises a `TypeError`. -/
theorem lineRegions_total_only_if_all_lines_nonempty :
    (∀ lines : List (List Atom), lines ≠ [] → (∀ l ∈ lines, l ≠ []) →
      ∃ rs, getLineRegionsFromXmlFile lines = Except.ok rs) ∧
    getLineRegionsFromXmlFile [[⟨10, 20, 5, 8⟩], []] = Except.error "TypeError" := by
  constructor
  · intro lines hne hall
    exact ⟨_, getLineRegionsFromXmlFile_ok lines hne hall⟩
  · rfl

/-- Witness for C9's universally quantified conjunct, at a concrete one-line
form. -/
theorem lineRegions_total_witness :
    ([[⟨10, 20, 5, 8⟩]] : List (List Atom)) ≠ [] ∧
    (∀ l ∈ ([[⟨10, 20, 5, 8⟩]] : List (List Atom)), l ≠ []) ∧
    ∃ rs, getLineRegionsFromXmlFile [[⟨10, 20, 5, 8⟩]] = Except.ok rs :=
  ⟨by decide, by decide,
    lineRegions_total_only_if_all_lines_nonempty.1 [[⟨10, 20, 5, 8⟩]] (by decide) (by decide)⟩

/-! ## `IAMSyntheticParagraphsDataset.__getitem__` (iam_synthetic_paragraphs.py)

Python (lines 141-166):
```
num_lines = random.randint(self.min_num_lines, self.max_num_lines)   # 1..15
indices = random.sample(self.ids, k=num_lines)
while True:
    datum = join_line_crops_to_form_paragraph([self.line_crops[i] for i in indices])
    labels = NEW_LINE_TOKEN.join([self.line_labels[i] for i in indices])
    if (len(labels) <= self.output_dims[0] - 2
            and datum.height <= self.input_dims[1]
            and datum.width <= self.input_dims[2]):
        break
    indices = indices[:-1]
```
`join_line_crops_to_form_paragraph` stacks the crops vertically: the result's
height is the sum of the crop heights and its width the maximum crop width;
on an empty crop list its `crop_shapes[:, 0]` indexing raises, modelled as
`none`. -/

/-- The newline token joining line labels (`NEW_LINE_TOKEN = "\n"`). -/
def NEW_LINE_TOKEN : List Char := [Char.ofNat 10]

/-- A materialized line crop together with its label. -/
structure LineCrop where
  height : Nat
  width : Nat
  label : List Char
deriving DecidableEq, Repr

/-- The configured dimensions seen by the dataset: `input_dims = (1, H, W)`
and `output_dims = (L, 1)`. -/
structure ComposerConfig where
  inputHeight : Nat
  inputWidth : Nat
  outputLength : Nat
deriving DecidableEq, Repr

/-- Python `"\n".join(...)` on label strings. -/
def joinStrings : List (List Char) → List Char
  | [] => []
  | [s] => s
  | s :: ss => s ++ NEW_LINE_TOKEN ++ joinStrings ss

/-- Height of the composed paragraph image: the sum of the crop heights. -/
def paraHeight (crops : List LineCrop) : Nat := (crops.map LineCrop.height).sum

/-- Width of the composed paragraph image: the maximum crop width. -/
def paraWidth (crops : List LineCrop) : Nat := (crops.map LineCrop.width).foldr max 0

/-- The `if` condition of the retry loop: label length within
`output_dims[0] - 2`, composed height within `input_dims[1]`, composed width
within `input_dims[2]`. -/
def fitsBudget (cfg : ComposerConfig) (crops : List LineCrop) : Bool :=
  decide (((joinStrings (crops.map LineCrop.label)).length : Int) ≤ (cfg.outputLength : Int) - 2)
    && decide (paraHeight crops ≤ cfg.inputHeight)
    && decide (paraWidth crops ≤ cfg.inputWidth)

/-- The retry loop, processing the sampled list from its tail (structural
recursion on the reversed list mirrors `indices = indices[:-1]`). An empty
list models the crash of `join_line_crops_to_form_paragraph` on an empty
sequence. -/
def composeLoopRev (cfg : ComposerConfig) : List LineCrop → Option (List LineCrop)
  | [] => none
  | c :: cs =>
    if fitsBudget cfg ((c :: cs).reverse) then some ((c :: cs).reverse)
    else composeLoopRev cfg cs

/-- Embedding of the `while True` retry loop of
`IAMSyntheticParagraphsDataset.__getitem__`: return the first subset of the
sampled crops, shrinking from the tail, that fits the budget; `none` when
the list shrinks to empty and composition fails. -/
def composeLoop (cfg : ComposerConfig) (crops : List LineCrop) : Option (List LineCrop) :=
  composeLoopRev cfg crops.reverse

theorem composeLoop_nil (cfg : ComposerConfig) : composeLoop cfg [] = none := rfl

theorem composeLoop_eq (cfg : ComposerConfig) (init : List LineCrop) (hne : init ≠ []) :
    composeLoop cfg init =
      if fitsBudget cfg init = true then some init else composeLoop cfg init.dropLast := by
  cases h : init.reverse with
  | nil => exact absurd (List.reverse_eq_nil_iff.mp h) hne
  | cons c cs =>
    have hinit : init = (c :: cs).reverse := by rw [← h, List.reverse_reverse]
    have hdrop : init.dropLast = cs.reverse := by
      rw [hinit, List.reverse_cons, List.dropLast_concat]
    rw [composeLoop, h, composeLoopRev, ← hinit, hdrop, composeLoop, List.reverse_reverse]

theorem joinStrings_cons_length_le (s : List Char) (ss : List (List Char)) :
    s.length ≤ (joinStrings (s :: ss)).length := by
  cases ss with
  | nil => simp [joinStrings]
  | cons t ts => simp [joinStrings]

theorem fitsBudget_head (cfg : ComposerConfig) (c : LineCrop) (cs : List LineCrop)
    (h : fitsBudget cfg (c :: cs) = true) : fitsBudget cfg [c] = true := by
  simp only [fitsBudget, Bool.and_eq_true, decide_eq_true_eq] at h ⊢
  obtain ⟨⟨hl, hh⟩, hw⟩ := h
  refine ⟨⟨?_, ?_⟩, ?_⟩
  · have := joinStrings_cons_length_le c.label (cs.map LineCrop.label)
    have hone : joinStrings [c.label] = c.label := rfl
    simp only [List.map_cons, List.map_nil] at *
    rw [hone]
    omega
  · simp only [paraHeight, List.map_cons, List.sum_cons, List.map_nil, List.sum_nil] at hh ⊢
    omega
  · simp only [paraWidth, List.map_cons, List.foldr_cons, List.map_nil, List.foldr_nil] at hw ⊢
    omega

theorem composeLoop_take_of_some (cfg : ComposerConfig) :
    ∀ (rl : List LineCrop) (res : List LineCrop), composeLoopRev cfg rl = some res →
      res ≠ [] ∧ fitsBudget cfg res = true ∧ ∃ k, res = rl.reverse.take k
  | [], res, h => by simp [composeLoopRev] at h
  | c :: cs, res, h => by
    rw [composeLoopRev] at h
    by_cases hf : fitsBudget cfg ((c :: cs).reverse) = true
    · rw [if_pos hf] at h
      obtain rfl : (c :: cs).reverse = res := by simpa using h
      exact ⟨by simp, hf, (c :: cs).reverse.length, by simp⟩
    · rw [if_neg hf] at h
      obtain ⟨hres, hfit, k, hk⟩ := composeLoop_take_of_some cfg cs res h
      refine ⟨hres, hfit, min k cs.reverse.length, ?_⟩
      have hk' : res = cs.reverse.take (min k cs.reverse.length) := by
        rcases Nat.le_total k cs.reverse.length with hle | hle
        · rwa [Nat.min_eq_left hle]
        · rw [Nat.min_eq_right hle, List.take_length]
          rwa [List.take_of_length_le hle] at hk
      rw [List.reverse_cons, List.take_append_of_le_length (by omega)]
      exact hk'

/-- C5: every sample the retry loop returns satisfies all four bounds: the
number of stacked lines is between 1 and 15 (it never exceeds the sampled
`k ≤ 15`), the composed height (sum of crop heights) fits the configured
input height, the composed width (max crop width) fits the configured input
width, and the joined label length fits `output_dims[0] - 2`. -/
theorem composer_bounds (cfg : ComposerConfig) (init res : List LineCrop)
    (hk : init.length ≤ 15) (h : composeLoop cfg init = some res) :
    1 ≤ res.length ∧ res.length ≤ 15 ∧
    paraHeight res ≤ cfg.inputHeight ∧ paraWidth res ≤ cfg.inputWidth ∧
    ((joinStrings (res.map LineCrop.label)).length : Int) ≤ (cfg.outputLength : Int) - 2 := by
  obtain ⟨hres, hfit, k, hkk⟩ := composeLoop_take_of_some cfg init.reverse res h
  have hlen : res.length ≤ init.length := by
    rw [hkk, List.reverse_reverse]
    simp [List.length_take]
  simp only [fitsBudget, Bool.and_eq_true, decide_eq_true_eq] at hfit
  refine ⟨?_, by omega, hfit.1.2, hfit.2, hfit.1.1⟩
  cases res with
  | nil => exact absurd rfl hres
  | cons a as => simp

/-- Witness for C5 at a concrete two-line sample that fits outright. -/
theorem composer_bounds_witness :
    ([⟨10, 20, ['a']⟩, ⟨12, 18, ['b']⟩] : List LineCrop).length ≤ 15 ∧
    composeLoop ⟨100, 100, 50⟩ [⟨10, 20, ['a']⟩, ⟨12, 18, ['b']⟩] =
      some [⟨10, 20, ['a']⟩, ⟨12, 18, ['b']⟩] ∧
    (1 ≤ ([⟨10, 20, ['a']⟩, ⟨12, 18, ['b']⟩] : List LineCrop).length ∧
     ([⟨10, 20, ['a']⟩, ⟨12, 18, ['b']⟩] : List LineCrop).length ≤ 15 ∧
     paraHeight [⟨10, 20, ['a']⟩, ⟨12, 18, ['b']⟩] ≤ (100 : Nat) ∧
     paraWidth [⟨10, 20, ['a']⟩, ⟨12, 18, ['b']⟩] ≤ (100 : Nat) ∧
     ((joinStrings (([⟨10, 20, ['a']⟩, ⟨12, 18, ['b']⟩] : List LineCrop).map LineCrop.label)).length : Int) ≤
       ((50 : Nat) : Int) - 2) :=
  ⟨by decide, by decide,
    composer_bounds ⟨100, 100, 50⟩ [⟨10, 20, ['a']⟩, ⟨12, 18, ['b']⟩]
      [⟨10, 20, ['a']⟩, ⟨12, 18, ['b']⟩] (by decide) (by decide)⟩

/-- C4: the retry loop only ever shrinks the sampled list from its tail (the
result is a prefix of the starting sample, never a re-drawn set), and it
terminates with a successful sample whenever every individual sampled line
fits the configured budget on its own. -/
theorem composer_terminates (cfg : ComposerConfig) (init : List LineCrop)
    (hne : init ≠ []) (hall : ∀ c ∈ init, fitsBudget cfg [c] = true) :
    ∃ res, composeLoop cfg init = some res ∧ ∃ k, res = init.take k := by
  have key : ∀ (rl : List LineCrop), rl ≠ [] →
      (∀ c ∈ rl, fitsBudget cfg [c] = true) → composeLoopRev cfg rl ≠ none := by
    intro rl
    induction rl with
    | nil => intro h; exact absurd rfl h
    | cons c cs ih =>
      intro _ hall'
      rw [composeLoopRev]
      by_cases hf : fitsBudget cfg (cs.reverse ++ [c]) = true
      · simp [hf]
      · rw [List.reverse_cons, if_neg hf]
        cases cs with
        | nil =>
          exact absurd (hall' c (by simp)) (by simpa using hf)
        | cons d ds =>
          exact ih (by simp) (fun x hx => hall' x (by simp [hx]))
  cases hres : composeLoop cfg init with
  | none =>
    exact absurd hres (key init.reverse (by simpa using hne)
      (fun c hc => hall c (List.mem_reverse.mp hc)))
  | some res =>
    obtain ⟨_, _, k, hk⟩ := composeLoop_take_of_some cfg init.reverse res hres
    exact ⟨res, rfl, k, by simpa using hk⟩

/-- Witness for C4 at a concrete sample whose lines each fit individually. -/
theorem composer_terminates_witness :
    ([⟨60, 20, ['a']⟩, ⟨60, 18, ['b']⟩] : List LineCrop) ≠ [] ∧
    (∀ c ∈ ([⟨60, 20, ['a']⟩, ⟨60, 18, ['b']⟩] : List LineCrop),
      fitsBudget ⟨100, 100, 50⟩ [c] = true) ∧
    ∃ res, composeLoop ⟨100, 100, 50⟩ [⟨60, 20, ['a']⟩, ⟨60, 18, ['b']⟩] = some res ∧
      ∃ k, res = ([⟨60, 20, ['a']⟩, ⟨60, 18, ['b']⟩] : List LineCrop).take k :=
  ⟨by decide, by decide,
    composer_terminates ⟨100, 100, 50⟩ [⟨60, 20, ['a']⟩, ⟨60, 18, ['b']⟩]
      (by decide) (by decide)⟩

theorem composeLoop_none_iff_aux (cfg : ComposerConfig) :
    ∀ (n : Nat) (l : LineCrop) (ls : List LineCrop), ls.length ≤ n →
      (composeLoop cfg (l :: ls) = none ↔ fitsBudget cfg [l] = false) := by
  intro n
  induction n with
  | zero =>
    intro l ls hls
    obtain rfl : ls = [] := List.length_eq_zero.mp (Nat.le_zero.mp hls)
    rw [composeLoop_eq cfg [l] (by simp)]
    by_cases hf : fitsBudget cfg [l] = true <;> simp [hf, composeLoop_nil]
  | succ n ih =>
    intro l ls hls
    rw [composeLoop_eq cfg (l :: ls) (by simp)]
    by_cases hf : fitsBudget cfg (l :: ls) = true
    · have : fitsBudget cfg [l] = true := fitsBudget_head cfg l ls hf
      simp [hf, this]
    · rw [if_neg hf]
      cases ls with
      | nil =>
        simp only [List.dropLast_single, composeLoop_nil, true_iff]
        simpa using hf
      | cons d ds =>
        have hdrop : (l :: d :: ds).dropLast = l :: (d :: ds).dropLast := rfl
        rw [hdrop, ih l (d :: ds).dropLast (by simp at hls ⊢; omega)]

/-- C10: starting from a nonempty sample whose first line does not fit the
budget on its own, the loop shrinks the index list to empty and the next
composition step fails on the empty crop sequence (modelled `none`) rather
than looping forever; consequently, over samples drawn from a line pool, the
empty-input error branch is unreachable exactly when every individual line
crop and label fits the budget. -/
theorem composer_empty_error_iff (cfg : ComposerConfig) (pool : List LineCrop) :
    (∀ (l : LineCrop) (ls : List LineCrop),
        composeLoop cfg (l :: ls) = none ↔ fitsBudget cfg [l] = false) ∧
    ((∀ init : List LineCrop, init ≠ [] → (∀ c ∈ init, c ∈ pool) →
        composeLoop cfg init ≠ none) ↔ (∀ c ∈ pool, fitsBudget cfg [c] = true)) := by
  have base : ∀ (l : LineCrop) (ls : List LineCrop),
      composeLoop cfg (l :: ls) = none ↔ fitsBudget cfg [l] = false :=
    fun l ls => composeLoop_none_iff_aux cfg ls.length l ls le_rfl
  refine ⟨base, ?_, ?_⟩
  · intro h c hc
    have := h [c] (by simp) (by simpa using hc)
    by_contra hfalse
    exact this ((base c []).mpr (by simpa using hfalse))
  · intro h init hne hsub
    cases init with
    | nil => exact absurd rfl hne
    | cons l ls =>
      intro hnone
      have hl : fitsBudget cfg [l] = false := (base l ls).mp hnone
      have := h l (hsub l (by simp))
      rw [this] at hl
      exact absurd hl (by decide)

/-- Witness for C10: with a single-line pool that fits, the loop never hits
the empty-input error branch. -/
theorem composer_empty_error_iff_witness :
    composeLoop ⟨100, 100, 50⟩ [⟨60, 20, ['a']⟩] ≠ none :=
  ((composer_empty_error_iff ⟨100, 100, 50⟩ [⟨60, 20, ['a']⟩]).2.mpr (by decide))
    [⟨60, 20, ['a']⟩] (by decide) (by decide)

/-! ## Train/val/test split (iam.py, `IAM.train_ids` and the split tests)

Python:
```
train_ids = list(set(self.all_ids) - (set(self.test_ids) | set(self.validation_ids)))
```
The test and validation ID lists ship as metadata files of the dataset; that
they are subsets of `all_ids` and mutually disjoint are data facts asserted
by `test_iam_data_splits`, taken as hypotheses here. -/

/-- Embedding of `IAM.train_ids`: the set difference of all form IDs and the
union of the test and validation IDs. -/
def trainIds {α : Type} [DecidableEq α]
    (allIds testIds validationIds : List α) : Finset α :=
  allIds.toFinset \ (testIds.toFinset ∪ validationIds.toFinset)

/-- C3: whenever the shipped test and validation ID lists are disjoint and
drawn from the form-ID universe, the split assignment is a disjoint total
cover: train, validation and test are pairwise disjoint and their union is
`all_ids`. -/
theorem split_disjoint_total_cover {α : Type} [DecidableEq α]
    (allIds testIds validationIds : List α)
    (hsub : testIds.toFinset ∪ validationIds.toFinset ⊆ allIds.toFinset)
    (hdisj : testIds.toFinset ∩ validationIds.toFinset = ∅) :
    trainIds allIds testIds validationIds ∩ validationIds.toFinset = ∅ ∧
    trainIds allIds testIds validationIds ∩ testIds.toFinset = ∅ ∧
    validationIds.toFinset ∩ testIds.toFinset = ∅ ∧
    trainIds allIds testIds validationIds ∪ validationIds.toFinset ∪ testIds.toFinset =
      allIds.toFinset := by
  have hdisj' : ∀ x, ¬(x ∈ testIds.toFinset ∧ x ∈ validationIds.toFinset) := by
    intro x hx
    have : x ∈ testIds.toFinset ∩ validationIds.toFinset := Finset.mem_inter.mpr hx
    simp [hdisj] at this
  have hsub' : ∀ x, x ∈ testIds.toFinset ∨ x ∈ validationIds.toFinset → x ∈ allIds.toFinset :=
    fun x hx => hsub (Finset.mem_union.mpr hx)
  refine ⟨Finset.eq_empty_of_forall_not_mem ?_, Finset.eq_empty_of_forall_not_mem ?_,
    Finset.eq_empty_of_forall_not_mem ?_, ?_⟩
  · intro x hx
    rw [Finset.mem_inter] at hx
    have hm := hx.1
    rw [trainIds, Finset.mem_sdiff, Finset.mem_union] at hm
    exact hm.2 (Or.inr hx.2)
  · intro x hx
    rw [Finset.mem_inter] at hx
    have hm := hx.1
    rw [trainIds, Finset.mem_sdiff, Finset.mem_union] at hm
    exact hm.2 (Or.inl hx.2)
  · intro x hx
    rw [Finset.mem_inter] at hx
    exact hdisj' x ⟨hx.2, hx.1⟩
  · ext x
    have h2 := hsub' x
    simp only [trainIds, Finset.mem_union, Finset.mem_sdiff]
    tauto

/-- Witness for C3 at a concrete three-form universe. -/
theorem split_disjoint_total_cover_witness :
    (([0] : List Nat).toFinset ∪ ([1] : List Nat).toFinset ⊆ ([0, 1, 2] : List Nat).toFinset) ∧
    (([0] : List Nat).toFinset ∩ ([1] : List Nat).toFinset = ∅) ∧
    (trainIds [0, 1, 2] [0] [1] ∩ ([1] : List Nat).toFinset = ∅ ∧
     trainIds [0, 1, 2] [0] [1] ∩ ([0] : List Nat).toFinset = ∅ ∧
     ([1] : List Nat).toFinset ∩ ([0] : List Nat).toFinset = ∅ ∧
     trainIds [0, 1, 2] [0] [1] ∪ ([1] : List Nat).toFinset ∪ ([0] : List Nat).toFinset =
       ([0, 1, 2] : List Nat).toFinset) :=
  ⟨by decide, by decide, split_disjoint_total_cover [0, 1, 2] [0] [1] (by decide) (by decide)⟩

/-! ## `_get_ids_from_lwitlrt_split_file` (iam.py, lines 163-169)

Python:
```
line_ids = line_ids_str.split("\n")
page_ids = list({"-".join(line_id.split("-")[:2]) for line_id in line_ids if line_id})
```
and `IAM.validation_ids` concatenates the results for the two validation
split files with `list.extend`, without de-duplicating across the files. -/

/-- Python `str.split(sep)` for a one-character separator, keeping empty
pieces. -/
def splitOnChar (sep : Char) : List Char → List (List Char)
  | [] => [[]]
  | c :: cs =>
    match splitOnChar sep cs with
    | [] => [[]]
    | p :: ps => if c = sep then [] :: p :: ps else (c :: p) :: ps

/-- The form ID of a line ID: `"-".join(line_id.split("-")[:2])`. -/
def formIdOfLineId (lineId : List Char) : List Char :=
  List.intercalate [(Char.ofNat 45)] ((splitOnChar (Char.ofNat 45) lineId).take 2)

/-- Embedding of `_get_ids_from_lwitlrt_split_file`: split the file content
on newlines, keep non-empty line IDs, map each to its form ID, and
de-duplicate (the Python set comprehension). -/
def getIdsFromLwitlrtSplitFile (content : List Char) : List (List Char) :=
  (((splitOnChar (Char.ofNat 10) content).filter (fun l => l ≠ [])).map formIdOfLineId).dedup

/-- Embedding of `IAM.validation_ids`: the parse of validation set file 1
extended with the parse of validation set file 2. -/
def validationIds (content1 content2 : List Char) : List (List Char) :=
  getIdsFromLwitlrtSplitFile content1 ++ getIdsFromLwitlrtSplitFile content2

/-- Counterexample to C7: two split files listing different lines of the same
form (`a01-000-00` and `a01-000-01`) both parse to the form ID `a01-000`, so
their concatenation `validation_ids` contains that form ID twice. -/
theorem validationIds_duplicate_counterexample :
    ¬(validationIds ("a01-000-00".toList) ("a01-000-01".toList)).Nodup := by
  decide

/-- C7 (amended): parsing a split file maps each non-empty line to the form
ID given by its first two hyphen-delimited components, skips empty lines,
and the per-file result contains no form ID twice; `validation_ids`, being
the concatenation of the two files' parses, contains no duplicate provided
the two files share no form ID. -/
theorem splitFileIds_amended (content1 content2 : List Char) :
    (getIdsFromLwitlrtSplitFile content1).Nodup ∧
    (∀ i : List Char, i ∈ getIdsFromLwitlrtSplitFile content1 ↔
      ∃ line, line ∈ splitOnChar (Char.ofNat 10) content1 ∧ line ≠ [] ∧
        i = formIdOfLineId line) ∧
    ((∀ i ∈ getIdsFromLwitlrtSplitFile content1, i ∉ getIdsFromLwitlrtSplitFile content2) →
      (validationIds content1 content2).Nodup) := by
  refine ⟨List.nodup_dedup _, ?_, ?_⟩
  · intro i
    simp only [getIdsFromLwitlrtSplitFile, List.mem_dedup, List.mem_map, List.mem_filter,
      decide_not, Bool.not_eq_true', decide_eq_false_iff_not]
    constructor
    · rintro ⟨line, ⟨hmem, hne⟩, rfl⟩
      exact ⟨line, hmem, hne, rfl⟩
    · rintro ⟨line, hmem, hne, rfl⟩
      exact ⟨line, ⟨hmem, hne⟩, rfl⟩
  · intro hdisj
    exact (List.nodup_dedup _).append (List.nodup_dedup _) hdisj

/-- Witness for C7's amended claim: two files over distinct forms give a
duplicate-free `validation_ids`. -/
theorem splitFileIds_amended_witness :
    (∀ i ∈ getIdsFromLwitlrtSplitFile ("a01-000-00".toList),
      i ∉ getIdsFromLwitlrtSplitFile ("a02-000-00".toList)) ∧
    (validationIds ("a01-000-00".toList) ("a02-000-00".toList)).Nodup :=
  ⟨by decide,
    (splitFileIds_amended ("a01-000-00".toList) ("a02-000-00".toList)).2.2 (by decide)⟩

/-! ## `validate_input_and_output_dimensions` (iam_paragraphs.py, lines 114-124)

Python:
```
properties = get_dataset_properties()
max_image_shape = properties["crop_shape"]["max"] / IMAGE_SCALE_FACTOR
assert input_dims is not None and input_dims[1] >= max_image_shape[0] and input_dims[2] >= max_image_shape[1]
assert output_dims is not None and output_dims[0] >= properties["label_length"]["max"] + 2
```
`crop_shape`'s `max` is the componentwise (numpy `axis=0`) maximum of the
persisted per-form crop shapes; the division by the scale factor is exact
rational arithmetic on halves. -/

/-- IMAGE_SCALE_FACTOR = DOWNSAMPLE_FACTOR = 2. -/
def IMAGE_SCALE_FACTOR : ℚ := 2

/-- The per-form properties persisted in `_properties.json` by
`IAMParagraphs.prepare_data`: `crop_shape` (height, width), `label_length`,
`num_lines`. -/
structure FormProperties where
  cropHeight : Nat
  cropWidth : Nat
  labelLength : Nat
  numLines : Nat
deriving DecidableEq, Repr

/-- Embedding of `validate_input_and_output_dimensions`, `true` when both
assertions pass: the configured input height/width are at least the
componentwise maximum persisted crop shape over the scale factor, and the
configured output length is at least the maximum label length plus 2. -/
def validateInputAndOutputDimensions (props : List FormProperties)
    (inputHeight inputWidth outputLength : Nat) : Bool :=
  decide (((((props.map FormProperties.cropHeight).foldr max 0 : Nat) : ℚ) / IMAGE_SCALE_FACTOR ≤
      (inputHeight : ℚ)))
    && decide (((((props.map FormProperties.cropWidth).foldr max 0 : Nat) : ℚ) / IMAGE_SCALE_FACTOR ≤
      (inputWidth : ℚ)))
    && decide ((props.map FormProperties.labelLength).foldr max 0 + 2 ≤ outputLength)

theorem foldr_max_le_iff (l : List Nat) (c : Nat) :
    l.foldr max 0 ≤ c ↔ ∀ x ∈ l, x ≤ c := by
  induction l with
  | nil => simp
  | cons a as ih => simp [ih, Nat.max_le]

theorem le_foldr_max (l : List Nat) (x : Nat) (hx : x ∈ l) : x ≤ l.foldr max 0 := by
  induction l with
  | nil => cases hx
  | cons a as ih =>
    rcases List.mem_cons.mp hx with rfl | h
    · exact le_max_left _ _
    · exact le_trans (ih h) (le_max_right _ _)

theorem half_le_iff (m c : Nat) :
    ((m : ℚ) / IMAGE_SCALE_FACTOR ≤ (c : ℚ)) ↔ m ≤ 2 * c := by
  rw [IMAGE_SCALE_FACTOR, div_le_iff₀ (by norm_num)]
  constructor
  · intro h
    have : (m : ℚ) ≤ ((2 * c : Nat) : ℚ) := by push_cast; linarith
    exact_mod_cast this
  · intro h
    have : (m : ℚ) ≤ ((2 * c : Nat) : ℚ) := by exact_mod_cast h
    push_cast at this
    linarith

/-- C8: for a non-empty set of persisted per-form properties, setup's
dimension validation succeeds if and only if every observed example fits the
configuration: each crop shape, at the validation's scale, is within the
configured input height and width, and each label length plus 2 (for the
start and end tokens) is within the configured output length.  Equivalently
it fails (assertion error) exactly when some observed example does not
fit. -/
theorem validateDimensions_iff (props : List FormProperties) (hne : props ≠ [])
    (inputHeight inputWidth outputLength : Nat) :
    validateInputAndOutputDimensions props inputHeight inputWidth outputLength = true ↔
      ∀ p ∈ props,
        (p.cropHeight : ℚ) / IMAGE_SCALE_FACTOR ≤ (inputHeight : ℚ) ∧
        (p.cropWidth : ℚ) / IMAGE_SCALE_FACTOR ≤ (inputWidth : ℚ) ∧
        p.labelLength + 2 ≤ outputLength := by
  simp only [validateInputAndOutputDimensions, Bool.and_eq_true, decide_eq_true_eq]
  constructor
  · rintro ⟨⟨hh, hw⟩, hl⟩ p hp
    rw [half_le_iff, foldr_max_le_iff] at hh hw
    refine ⟨?_, ?_, ?_⟩
    · rw [half_le_iff]
      exact hh _ (List.mem_map_of_mem _ hp)
    · rw [half_le_iff]
      exact hw _ (List.mem_map_of_mem _ hp)
    · have := le_foldr_max (props.map FormProperties.labelLength) p.labelLength
        (List.mem_map_of_mem _ hp)
      omega
  · intro h
    refine ⟨⟨?_, ?_⟩, ?_⟩
    · rw [half_le_iff, foldr_max_le_iff]
      intro x hx
      obtain ⟨p, hp, rfl⟩ := List.mem_map.mp hx
      exact (half_le_iff _ _).mp (h p hp).1
    · rw [half_le_iff, foldr_max_le_iff]
      intro x hx
      obtain ⟨p, hp, rfl⟩ := List.mem_map.mp hx
      exact (half_le_iff _ _).mp (h p hp).2.1
    · cases props with
      | nil => exact absurd rfl hne
      | cons q qs =>
        have h2 : 2 ≤ outputLength := by
          have := (h q (by simp)).2.2
          omega
        have hb : ((q :: qs).map FormProperties.labelLength).foldr max 0 ≤ outputLength - 2 := by
          rw [foldr_max_le_iff]
          intro x hx
          obtain ⟨p, hp, rfl⟩ := List.mem_map.mp hx
          have := (h p hp).2.2
          omega
        omega

/-- Witness for C8 at a one-form property set. -/
theorem validateDimensions_iff_witness :
    ([⟨100, 200, 30, 3⟩] : List FormProperties) ≠ [] ∧
    (validateInputAndOutputDimensions [⟨100, 200, 30, 3⟩] 50 100 32 = true ↔
      ∀ p ∈ ([⟨100, 200, 30, 3⟩] : List FormProperties),
        (p.cropHeight : ℚ) / IMAGE_SCALE_FACTOR ≤ ((50 : Nat) : ℚ) ∧
        (p.cropWidth : ℚ) / IMAGE_SCALE_FACTOR ≤ ((100 : Nat) : ℚ) ∧
        p.labelLength + 2 ≤ 32) :=
  ⟨by decide, validateDimensions_iff [⟨100, 200, 30, 3⟩] (by decide) 50 100 32⟩

end FSDL
